import Mathlib

/-!
Verification development for the `dreamcoder` enumeration core
(`src/dreamcoder/enumeration.py`).

The Python source is shallowly embedded: floats become `Rat`, the wall
clock becomes an explicit monotone read sequence `clk : Nat → Rat`
consulted through a read counter, dictionaries become association lists
with Python's insertion-order update semantics, and the unbounded
`while` loops become fuel-indexed recursions (the claims proved below
hold for every amount of fuel, or state the fuel they need).

Classes that the repository only uses here but whose definitions are not
under `src/` (the `PQ` bounded priority queue from `utilities.py`, the
`Frontier` class from `frontier.py`, and the grammar's `enumeration`
generator from `grammar.py`) are modelled from the specification; each
such definition carries a doc comment starting `Modelled from the spec:`.
-/

namespace EC

/-- A frontier entry as constructed by `FrontierEntry(program=..., logPrior=...,
logLikelihood=...)` in `enumeration.py`.  Programs are identified by a code
(`Nat`); their evaluation semantics are irrelevant to the claims. -/
structure FrontierEntry where
  program : Nat
  logPrior : Rat
  logLikelihood : Rat
deriving DecidableEq, Repr

/-- The joint score `logPrior + logLikelihood` used throughout the scheduler. -/
def FrontierEntry.joint (e : FrontierEntry) : Rat :=
  e.logPrior + e.logLikelihood

/-- Modelled from the spec: `frontier.py` is not under `src/`.  A `Frontier`
is the bounded per-task collection of `FrontierEntry`; the task is referenced
by its (unique) name. -/
structure Frontier where
  entries : List FrontierEntry
  task : String
deriving DecidableEq, Repr

/-- Modelled from the spec: `Frontier` "exposes `best posterior` = entry
maximizing `logPrior+logLikelihood`" (`frontier.py` is not under `src/`).
Earlier entries win ties. -/
def Frontier.bestPosterior (f : Frontier) : Option FrontierEntry :=
  f.entries.foldl
    (fun acc e =>
      match acc with
      | none => some e
      | some a => if e.joint > a.joint then some e else some a)
    none

/-- Modelled from the spec: `combine` "merges two Frontiers for the same Task";
"two entries are duplicates if their program representations are structurally
equal; duplicates are not both retained" (`frontier.py` is not under `src/`). -/
def Frontier.combine (f f' : Frontier) : Frontier :=
  ⟨f.entries ++ f'.entries.filter
      (fun e => !(f.entries.any (fun e0 => e0.program == e.program))),
   f.task⟩

/-- Python `numberOfHits` from `multicoreEnumeration` (enumeration.py:82-83):
`sum(e.logLikelihood > -0.01 for e in f)`. -/
def numberOfHits (f : Frontier) : Nat :=
  f.entries.countP (fun e => decide (e.logLikelihood > -(1/100 : Rat)))

/-- Modelled from the spec: the `PQ` bounded max-eviction priority queue of
`utilities.py` is not under `src/`.  It stores `(priority, value)` pairs and
iterating it yields the stored values; `enumerateForTasks` stores values
`(dt, FrontierEntry)`. -/
abbrev PQ := List (Rat × Rat × FrontierEntry)

/-- Modelled from the spec: `push` inserts a `(priority, value)` pair. -/
def PQ.push (q : PQ) (priority : Rat) (dt : Rat) (e : FrontierEntry) : PQ :=
  (priority, dt, e) :: q

/-- Modelled from the spec: `popMaximum` evicts "the maximum (worst) entry",
i.e. removes one element of maximal priority (the first such element). -/
def PQ.popMaximum : PQ → PQ
  | [] => []
  | x :: xs =>
    if xs.all (fun e => decide (e.1 ≤ x.1)) then xs
    else x :: PQ.popMaximum xs

/-- The discovery times stored in a queue (first components of the values). -/
def hitDts (q : PQ) : List Rat := q.map (fun x => x.2.1)

/-- The frontier entries stored in a queue (second components of the values). -/
def hitEntries (q : PQ) : List FrontierEntry := q.map (fun x => x.2.2)

/-- A stored `(dt, entry)` value of maximal joint score
(`logPrior + logLikelihood`); earlier values win ties. -/
def bestHitValue (q : PQ) : Option (Rat × FrontierEntry) :=
  (q.map (fun x => x.2)).foldl
    (fun acc v =>
      match acc with
      | none => some v
      | some a => if v.2.joint > a.2.joint then some v else some a)
    none

/-- The discovery time of a retained entry of maximal joint score. -/
def bestHitTime (q : PQ) : Option Rat :=
  (bestHitValue q).map (fun x => x.1)

/-- A task: unique `name`, textual request type, serialized examples.
The likelihood-scoring capability is passed separately (as the Python code
passes `likelihoodModel`). -/
structure Task where
  name : String
  request : String
  examples : List String
deriving DecidableEq, Repr

/-- A grammar: modelled as its weighted productions, `(logPrior, program)`
pairs.  (Only identity and the enumeration capability matter here.) -/
structure Grammar where
  productions : List (Rat × Nat)
deriving DecidableEq, Repr

/-- Modelled from the spec: `grammar.py` is not under `src/`.  The grammar's
"enumeration capability ... yields (logPrior, context, program) triples", and
a window request enumerates "every program whose description length lies in
`(previousBudget, budget]`" (description length = `-logPrior`).  Contexts and
the debug `stack` argument are dropped. -/
def Grammar.enumeration (g : Grammar) (lowerBound upperBound : Rat) :
    List (Rat × Nat) :=
  g.productions.filter
    (fun pp => decide (lowerBound < -pp.1) && decide (-pp.1 ≤ upperBound))

/- Association lists with Python-dict update semantics: replacing an existing
key keeps its position, a new key is appended. -/

/-- First-match lookup in an association list (Python `d[k]` / `d.get(k)`). -/
def getA {κ ν : Type} [DecidableEq κ] : List (κ × ν) → κ → Option ν
  | [], _ => none
  | kv :: rest, k => if kv.1 = k then some kv.2 else getA rest k

/-- Lookup with a default (Python `d.get(k, d0)`). -/
def getDA {κ ν : Type} [DecidableEq κ] (l : List (κ × ν)) (k : κ) (d : ν) : ν :=
  (getA l k).getD d

/-- Python-dict style update: replace in place if present, else append. -/
def setA {κ ν : Type} [DecidableEq κ] : List (κ × ν) → κ → ν → List (κ × ν)
  | [], k, v => [(k, v)]
  | kv :: rest, k, v =>
    if kv.1 = k then (k, v) :: rest else kv :: setA rest k v

/-! Embedding of `enumerateForTasks` (enumeration.py:479-600).

The wall clock is a monotone read sequence `clk : Nat → Rat`; the state keeps
the number of `time()` calls made so far in `c`, so read number `c` returns
`clk c`.  Read 0 is `starting = time()` (line 530).  The debug state-file
writes (lines 503-528, marked "DEBUGGING CODE. DO NOT MERGE.") only touch the
filesystem and are omitted.  The two `assert` statements on the description
length (lines 551-553) set `assertFailed` (an uncaught `AssertionError`); the
`EnumerationTimeout` raised at line 580 and caught at line 591 sets
`timedOut`. -/

/-- The inputs of `enumerateForTasks`.  `score` is the likelihood model's
`score(p, task)` (`None` = failure); `maximumFrontiers` is already converted
to a list aligned with `tasks` (line 498 of the source does this). -/
structure EnumInputs where
  g : Grammar
  tasks : List Task
  score : Nat → Task → Option Rat
  timeout : Rat
  elapsedTime : Rat
  lowerBound : Rat
  upperBound : Rat
  budgetIncrement : Rat
  maximumFrontiers : List Int
  clk : Nat → Rat

/-- The first clock read, `starting = time()` (line 530). -/
def starting (I : EnumInputs) : Rat := I.clk 0

/-- The mutable state of the enumeration loop. -/
structure EState where
  c : Nat
  hits : List PQ
  total : Nat
  timedOut : Bool
  assertFailed : Bool

/-- Lines 558-576: score one program against the task with index `nt.1`; on
success read the clock for `dt`, push into that task's bounded queue, and
evict the maximum-priority element if the queue now exceeds
`maximumFrontiers[n]`. -/
def scoreTask (I : EnumInputs) (prior : Rat) (p : Nat) (st : EState)
    (nt : Nat × Task) : EState :=
  match I.score p nt.2 with
  | none => st
  | some likelihood =>
    let dt := I.clk st.c - starting I + I.elapsedTime
    let priority := -(likelihood + prior)
    let q := (st.hits.getD nt.1 []).push priority dt
      ⟨p, prior, likelihood⟩
    let q := if (q.length : Int) > I.maximumFrontiers.getD nt.1 0 then
        q.popMaximum else q
    { st with c := st.c + 1, hits := st.hits.set nt.1 q }

/-- Lines 541-580: handle one enumerated `(prior, program)` pair — the two
window assertions, the program counters, the per-task scoring loop, and the
post-program timeout check. -/
def processProgram (I : EnumInputs) (previousBudget budget : Rat)
    (st : EState) (pp : Rat × Nat) : EState :=
  if st.timedOut || st.assertFailed then st
  else
    let dl := -pp.1
    if dl ≤ budget then
      if previousBudget < dl then
        let st := { st with total := st.total + 1 }
        let st := I.tasks.enum.foldl (scoreTask I pp.1 pp.2) st
        let now := I.clk st.c
        let st := { st with c := st.c + 1 }
        if now - starting I > I.timeout then { st with timedOut := true }
        else st
      else { st with assertFailed := true }
    else { st with assertFailed := true }

/-- One description-length window: fold over the grammar's enumeration of the
window `(previousBudget, budget]`. -/
def processWindow (I : EnumInputs) (previousBudget budget : Rat)
    (st : EState) : EState :=
  (I.g.enumeration previousBudget budget).foldl
    (processProgram I previousBudget budget) st

/-- Lines 535-589: the iterative-deepening `while` loop, as a fuel-indexed
recursion.  Head condition (line 535-537): clock still below
`starting + timeout`, some queue below its maximum frontier, and
`budget ≤ upperBound`.  After a window, the budget advances and the loop
breaks when it exceeds `upperBound` (lines 584-589). -/
def enumLoop (I : EnumInputs) :
    Nat → Rat → Rat → EState → EState
  | 0, _, _, st => st
  | fuel + 1, previousBudget, budget, st =>
    let now := I.clk st.c
    let st := { st with c := st.c + 1 }
    if now < starting I + I.timeout
        ∧ (st.hits.zip I.maximumFrontiers).any
            (fun hm => decide ((hm.1.length : Int) < hm.2))
        ∧ budget ≤ I.upperBound then
      let st := processWindow I previousBudget budget st
      if st.timedOut || st.assertFailed then st
      else
        let previousBudget := budget
        let budget := budget + I.budgetIncrement
        if budget > I.upperBound then st
        else enumLoop I fuel previousBudget budget st
    else st

/-- The initial state: one empty queue per task; clock read 0 was `starting`. -/
def initEState (I : EnumInputs) : EState :=
  { c := 1
    hits := I.tasks.map (fun _ => ([] : PQ))
    total := 0
    timedOut := false
    assertFailed := false }

/-- Run the whole enumeration loop from the initial budgets (lines 531-532). -/
def enumerateRun (I : EnumInputs) (fuel : Nat) : EState :=
  enumLoop I fuel I.lowerBound (I.lowerBound + I.budgetIncrement)
    (initEState I)

/-- Embedding of `enumerateForTasks`: the preconditions of lines 489-496 (a
timeout is modelled by the type; an empty task list raises `IndexError` at
line 494; unequal request types fail the assert), then the loop, then the
result construction of lines 593-598: per task, a `Frontier` of the retained
entries and a search time that is `None` for an empty queue and otherwise
`min(t for t, _ in hits[n])`.  `Except.error` marks an escaping exception. -/
def enumerateForTasks (I : EnumInputs) (fuel : Nat) :
    Except String (List Frontier × List (Option Rat)) :=
  match I.tasks with
  | [] => .error "IndexError: tasks is empty"
  | t0 :: rest =>
    if rest.all (fun t => t.request == t0.request) then
      let st := enumerateRun I fuel
      if st.assertFailed then .error "AssertionError"
      else
        .ok (I.tasks.enum.map
              (fun nt => Frontier.mk (hitEntries (st.hits.getD nt.1 []))
                nt.2.name),
             I.tasks.enum.map
              (fun nt => (hitDts (st.hits.getD nt.1 [])).min?))
    else .error "enumerateForTasks: Expected tasks to all have the same type"

/-! Embedding of `multicoreEnumeration` (enumeration.py:13-222).

The scheduler.  Jobs are keyed by `(grammar, request[, index])`.  Worker
executions and the wall clock are abstracted into an input trace: the message
queue `q` is a list of `SchedMessage` consumed in arrival order, and each
successful message carries the duration its job's stopwatch accumulated
between `start()` (at launch) and `stop()` (at message processing).  A
stopwatch's `elapsed` therefore only advances when its job's worker reports
back.  The `launches` counter instruments `parallelCallback(wrapInThread
(solver), ...)` dispatches (one per job receiving CPUs, line 158). -/

/-- The per-job `Stopwatch` (from `utilities.py`, used at lines 80, 140-141,
157, 193): `running` flag plus accumulated `elapsed` time. -/
structure Stopwatch where
  running : Bool
  elapsed : Rat
deriving DecidableEq, Repr

/-- A fresh stopwatch: not running, zero elapsed. -/
def defaultSW : Stopwatch := ⟨false, 0⟩

/-- Job key `(grammar, request type, optional testing index)` (lines 58-63). -/
abbrev JobKey := Grammar × String × Option Nat

/-- The scheduler's inputs.  `task2grammar` is the map from task (name) to
grammar (line 48-50 builds it from either form of `g`). -/
structure SchedInputs where
  tasks : List Task
  task2grammar : String → Grammar
  enumerationTimeout : Rat
  cpus : Nat
  maximumFrontier : Int
  testing : Bool

/-- Lines 57-63: bin the tasks into jobs; with `testing` each task gets its
own key via its index. -/
def mkJobs (I : SchedInputs) : List (JobKey × List Task) :=
  I.tasks.enum.foldl
    (fun jobs it =>
      let k : JobKey := (I.task2grammar it.2.name, it.2.request,
        if I.testing then some it.1 else none)
      setA jobs k (getDA jobs k [] ++ [it.2]))
    []

/-- Python `refreshJobs` (lines 113-121): keep, in each job, the tasks whose
frontier has fewer than `maximumFrontier` hits and whose job stopwatch has
not exceeded the enumeration timeout; delete a job once empty. -/
def refreshJobs (maximumFrontier : Int) (enumerationTimeout : Rat)
    (frontiers : List (String × Frontier))
    (stopwatches : List (JobKey × Stopwatch))
    (jobs : List (JobKey × List Task)) : List (JobKey × List Task) :=
  jobs.filterMap fun kv =>
    let v := kv.2.filter fun t =>
      decide (((numberOfHits (getDA frontiers t.name ⟨[], t.name⟩)) : Int)
          < maximumFrontier)
      && decide ((getDA stopwatches kv.1 defaultSW).elapsed
          ≤ enumerationTimeout)
    if v.isEmpty then none else some (kv.1, v)

/-- Python `maximumFrontiers(j)` (lines 96-98): per task, the remaining capacity
`maximumFrontier - numberOfHits(frontiers[t])`. -/
def jobMaximumFrontiers (maximumFrontier : Int)
    (frontiers : List (String × Frontier)) (ts : List Task) :
    List (String × Int) :=
  ts.map fun t =>
    (t.name, maximumFrontier - numberOfHits (getDA frontiers t.name ⟨[], t.name⟩))

/-- Python `budgetIncrement(lb)` (lines 85-94): the `if True:` short-circuit makes it
constantly `1.5`. -/
def budgetIncrementOf (_lb : Rat) : Rat := 3/2

/-- One pass of the `for t in tasks` loop inside `allocateCPUs`
(lines 103-110).  Returns the updated allocation, the remaining `n`, and
whether the loop stopped (testing early-return or `n == 0`). -/
def allocPass (testing : Bool) :
    List JobKey → List (JobKey × Nat) → Nat →
      List (JobKey × Nat) × Nat × Bool
  | [], alloc, n => (alloc, n, false)
  | t :: ts, alloc, n =>
    if testing && decide (getDA alloc t 0 > 0) then (alloc, n, true)
    else
      let alloc := setA alloc t (getDA alloc t 0 + 1)
      let n := n - 1
      if n = 0 then (alloc, n, true)
      else allocPass testing ts alloc n

/-- The `while n > 0` loop of `allocateCPUs` (fuel-indexed; each pass over a
nonempty task list consumes at least one CPU, so fuel `n` suffices). -/
def allocLoop (testing : Bool) (ts : List JobKey) :
    Nat → List (JobKey × Nat) → Nat → List (JobKey × Nat)
  | 0, alloc, _ => alloc
  | fuel + 1, alloc, n =>
    if n = 0 then alloc
    else
      match allocPass testing ts alloc n with
      | (alloc, n, stop) =>
        if stop then alloc else allocLoop testing ts fuel alloc n

/-- Python `allocateCPUs(n, tasks)` (lines 100-111). -/
def allocateCPUs (testing : Bool) (n : Nat) (ts : List JobKey) :
    List (JobKey × Nat) :=
  allocLoop testing ts n (ts.map (fun t => (t, 0))) n

/-- A worker completion message (the dilled dict read at line 184).
`value` pairs each task name with its returned frontier and search time;
`duration` is the wall time the job's stopwatch accumulates at `stop()`. -/
inductive SchedMessage where
  | success (ID : Nat) (value : List (String × Frontier × Option Rat))
      (duration : Rat)
  | failure (ID : Nat)
deriving Repr

/-- The scheduler's mutable state. -/
structure SState where
  jobs : List (JobKey × List Task)
  lowerBounds : List (JobKey × Rat)
  frontiers : List (String × Frontier)
  bestSearchTime : List (String × Option Rat)
  stopwatches : List (JobKey × Stopwatch)
  activeCPUs : Nat
  id2CPUs : List (Nat × Nat)
  id2job : List (Nat × JobKey)
  nextID : Nat
  launches : Nat
  msgs : List SchedMessage

/-- Stable insertion (used to model Python's stable `list.sort(key=...)`,
line 145): place `x` before the first element with a strictly larger
lower bound. -/
def insertByLB (lbs : List (JobKey × Rat)) (x : JobKey) :
    List JobKey → List JobKey
  | [] => [x]
  | y :: ys =>
    if getDA lbs x 0 ≤ getDA lbs y 0 then x :: y :: ys
    else y :: insertByLB lbs x ys

/-- Python `freeJobs.sort(key=lambda j: lowerBounds[j])` (line 145), as a stable
insertion sort. -/
def sortByLB (lbs : List (JobKey × Rat)) (l : List JobKey) : List JobKey :=
  l.foldr (insertByLB lbs) []

/-- Lines 149-176: launch every free job that was allocated at least one CPU:
start its stopwatch, record the worker id bookkeeping, consume the CPUs,
optimistically advance the job's lower bound, and count the dispatch. -/
def launchJobs (st : SState) (ordered : List JobKey)
    (alloc : List (JobKey × Nat)) : SState :=
  ordered.foldl
    (fun st j =>
      let a := getDA alloc j 0
      if a = 0 then st
      else
        let bi := budgetIncrementOf (getDA st.lowerBounds j 0)
        let sw := getDA st.stopwatches j defaultSW
        { st with
          stopwatches := setA st.stopwatches j { sw with running := true }
          id2CPUs := setA st.id2CPUs st.nextID a
          id2job := setA st.id2job st.nextID j
          nextID := st.nextID + 1
          activeCPUs := st.activeCPUs + a
          lowerBounds := setA st.lowerBounds j (getDA st.lowerBounds j 0 + bi)
          launches := st.launches + 1 })
    st

/-- Lines 195-217, for one `(t, f)` item of `newFrontiers.items()`: merge the
returned frontier into the running one and update the task's best search
time.  `Except.error` models the `KeyError`/`AssertionError` paths. -/
def processTaskResult (frontiers : List (String × Frontier))
    (bst : List (String × Option Rat)) (tname : String) (f : Frontier)
    (dt : Option Rat) :
    Except String (List (String × Frontier) × List (String × Option Rat)) :=
  match getA frontiers tname with
  | none => .error "KeyError: unknown task"
  | some oldF =>
    let oldBest := if oldF.entries.length = 0 then none
      else oldF.bestPosterior
    let merged := oldF.combine f
    let newBest := if merged.entries.length = 0 then none
      else merged.bestPosterior
    let frontiers := setA frontiers tname merged
    match dt with
    | none => .ok (frontiers, bst)
    | some d =>
      match getA bst tname with
      | none => .error "KeyError: unknown task"
      | some none => .ok (frontiers, setA bst tname (some d))
      | some (some b) =>
        match oldBest, newBest with
        | some ob, some nb =>
          if nb.joint > ob.joint then .ok (frontiers, setA bst tname (some d))
          else if nb.joint = ob.joint then
            .ok (frontiers, setA bst tname (some (min b d)))
          else .ok (frontiers, bst)
        | _, _ => .error "AssertionError: best entries undefined"

/-- Lines 186-220: handle one worker message.  A failure message hits the
`assert False` at line 189 — the whole run aborts.  A success message frees
the CPUs, stops the job's stopwatch, and merges every returned frontier. -/
def handleMessage (st : SState) (m : SchedMessage) : Except String SState :=
  match m with
  | .failure _ => .error "PANIC! Exception in child worker"
  | .success ID value duration =>
    match getA st.id2CPUs ID, getA st.id2job ID with
    | some cpus, some j =>
      let sw := getDA st.stopwatches j defaultSW
      let st := { st with
        activeCPUs := st.activeCPUs - cpus
        stopwatches := setA st.stopwatches j ⟨false, sw.elapsed + duration⟩ }
      value.foldlM
        (fun st tv =>
          (processTaskResult st.frontiers st.bestSearchTime tv.1 tv.2.1
            tv.2.2).map
            (fun fb => { st with frontiers := fb.1, bestSearchTime := fb.2 }))
        st
    | _, _ => .error "KeyError: unknown worker ID"

/-- Lines 136-176: one pass of job refreshing, free-job computation, and CPU
allocation/launching. -/
def schedPrepare (I : SchedInputs) (st : SState) : SState :=
  let jobs := refreshJobs I.maximumFrontier I.enumerationTimeout st.frontiers
    st.stopwatches st.jobs
  let st := { st with jobs := jobs }
  let freeJobs := (jobs.map Prod.fst).filter fun j =>
    !(getDA st.stopwatches j defaultSW).running
    && decide ((getDA st.stopwatches j defaultSW).elapsed
        < I.enumerationTimeout - 1/2)
  if !freeJobs.isEmpty && decide (st.activeCPUs < I.cpus) then
    let sorted := sortByLB st.lowerBounds freeJobs
    let alloc := allocateCPUs I.testing (I.cpus - st.activeCPUs) sorted
    launchJobs st sorted alloc
  else st

/-- Line 180: the loop's exit test — no stopwatch is running. -/
def allStopped (st : SState) : Bool :=
  st.stopwatches.all (fun kv => !kv.2.running)

/-- The scheduler's `while True` loop (lines 135-220), fuel-indexed. -/
def schedLoop (I : SchedInputs) : Nat → SState → Except String SState
  | 0, _ => .error "out of fuel"
  | fuel + 1, st =>
    let st := schedPrepare I st
    if allStopped st then .ok st
    else
      match st.msgs with
      | [] => .error "deadlock: no pending worker message"
      | m :: rest =>
        match handleMessage { st with msgs := rest } m with
        | .error e => .error e
        | .ok st2 => schedLoop I fuel st2

/-- Lines 57-80, 124-134: the scheduler's initial state. -/
def initSState (I : SchedInputs) (msgs : List SchedMessage) : SState :=
  let jobs := mkJobs I
  { jobs := jobs
    lowerBounds := jobs.map (fun kv => (kv.1, (0 : Rat)))
    frontiers := I.tasks.map (fun t => (t.name, Frontier.mk [] t.name))
    bestSearchTime := I.tasks.map (fun t => (t.name, (none : Option Rat)))
    stopwatches := jobs.map (fun kv => (kv.1, defaultSW))
    activeCPUs := 0
    id2CPUs := []
    id2job := []
    nextID := 0
    launches := 0
    msgs := msgs }

/-- Embedding of `multicoreEnumeration` over a worker-message trace: the loop, then the
return value of line 222 — frontiers aligned to the input task list and the
best-search-time map — plus the number of solver dispatches (instrumentation
for the no-process-launched property). -/
def multicoreEnumeration (I : SchedInputs) (msgs : List SchedMessage)
    (fuel : Nat) :
    Except String (List Frontier × List (String × Option Rat) × Nat) :=
  match schedLoop I fuel (initSState I msgs) with
  | .error e => .error e
  | .ok st =>
    .ok (I.tasks.map (fun t => getDA st.frontiers t.name ⟨[], t.name⟩),
         st.bestSearchTime, st.launches)

/-- The message a worker pushes onto the queue (`wrapInThread`,
lines 224-246): a success payload or a serialized exception. -/
inductive WorkerMessage (β ε : Type) where
  | success (ID : Nat) (value : β)
  | failure (ID : Nat) (exc : ε)
deriving DecidableEq, Repr

/-- Python `wrapInThread(f)` (lines 224-246): run `f`; put a success message with its
result, or a failure message with the raised exception. -/
def wrapInThread {α β ε : Type} (f : α → Except ε β) (ID : Nat) (a : α) :
    WorkerMessage β ε :=
  match f a with
  | .ok r => .success ID r
  | .error e => .failure ID e

/-! Embedding of the external-solver adapters (`solveForTask_ocaml`, lines
249-338, and `solveForTask_julia`, lines 375-473).

Subprocess plumbing and JSON serialization are outside the embedding; the
request object built at lines 274-285 (resp. 399-409) and the response
post-processing at lines 313-338 (resp. 447-473) — which are what the claims
are about — are embedded directly.  Both adapters build the identical request
object and post-process responses identically. -/

/-- One task message of the request (lines 261-271).  The conditional
`specialTask`/`extras` and `maxParameters` extras are omitted (they depend on
dynamic attributes no claim mentions). -/
structure TaskMsg where
  examples : List String
  name : String
  request : String
  maximumFrontier : Int
deriving DecidableEq, Repr

/-- The request object sent to the external solver (lines 274-285). -/
structure SolverRequest where
  dsl : Grammar
  taskMsgs : List TaskMsg
  programTimeout : Rat
  nc : Nat
  timeout : Rat
  lowerBound : Rat
  upperBound : Rat
  budgetIncrement : Rat
  verbose : Bool
  shatter : Nat
deriving DecidableEq, Repr

/-- Python's substring test `pat in s`, via `splitOn`: the pattern occurs iff
splitting on it yields more than one piece. -/
def strOccurs (pat s : String) : Bool :=
  (s.splitOn pat).length != 1

/-- Build the request object (lines 274-285; identical at 399-409):
`shatter` is `5` when there is exactly one task and its request type's
textual form mentions `"turtle"`, else `10`; every other field is filled
from the corresponding argument (`verbose` is the constant `False`). -/
def buildSolverRequest (g : Grammar) (tasks : List Task)
    (mfs : List (String × Int)) (evaluationTimeout : Rat) (cpus : Nat)
    (timeout lowerBound upperBound budgetIncrement : Rat) : SolverRequest :=
  { dsl := g
    taskMsgs := tasks.map
      (fun t => ⟨t.examples, t.name, t.request, getDA mfs t.name 0⟩)
    programTimeout := evaluationTimeout
    nc := cpus
    timeout := timeout
    lowerBound := lowerBound
    upperBound := upperBound
    budgetIncrement := budgetIncrement
    verbose := false
    shatter :=
      match tasks with
      | [t] => if strOccurs "turtle" t.request then 5 else 10
      | _ => 10 }

/-- One solution of the solver's response for some task: program text,
its log-likelihood, its log-prior, and its discovery time. -/
structure WireSolution where
  program : String
  logLikelihood : Rat
  logPrior : Rat
  time : Rat
deriving DecidableEq, Repr

/-- Python's `min` over `(score, time)` tuples (lexicographic, first minimal
element wins). -/
def tupMin (a b : Rat × Rat) : Rat × Rat :=
  if b.1 < a.1 ∨ (b.1 = a.1 ∧ b.2 < a.2) then b else a

/-- Lines 316-337, for one task: rebuild the frontier, re-parsing each
program (`parse`) and recomputing its log-prior from the grammar (`gLL`,
standing for `g.logLikelihood(t.request, p)`); an empty frontier gets search
time `None`, otherwise the time of the minimal `(logLikelihood + logPrior,
time)` tuple plus `elapsedTime`. -/
def ocamlTaskResult (gLL : String → Nat → Rat) (parse : String → Nat)
    (elapsedTime : Rat) (response : String → List WireSolution) (t : Task) :
    Frontier × Option Rat :=
  let sols := response t.name
  let frontier : Frontier :=
    ⟨sols.map (fun e => ⟨parse e.program, gLL t.request (parse e.program),
      e.logLikelihood⟩), t.name⟩
  let sTime :=
    if frontier.entries.isEmpty then none
    else
      match sols.map (fun e => (e.logLikelihood + e.logPrior, e.time)) with
      | [] => none
      | s :: ss => some ((ss.foldl tupMin s).2 + elapsedTime)
  (frontier, sTime)

/-- The whole response post-processing loop (lines 313-338): one
`(frontier, searchTime)` pair per task. -/
def solveForTask_ocamlResults (gLL : String → Nat → Rat)
    (parse : String → Nat) (elapsedTime : Rat) (tasks : List Task)
    (response : String → List WireSolution) :
    List (String × Frontier × Option Rat) :=
  tasks.map (fun t => (t.name, ocamlTaskResult gLL parse elapsedTime response t))

/-! Helper lemmas shared by the claim theorems. -/

/-- Folding preserves an invariant that every step preserves. -/
theorem foldl_preserve {σ α : Type} {P : σ → Prop} {f : σ → α → σ} :
    ∀ (l : List α), (∀ s x, x ∈ l → P s → P (f s x)) →
      ∀ s, P s → P (l.foldl f s)
  | [], _, _, hs => hs
  | x :: xs, hf, s, hs =>
    foldl_preserve xs (fun s y hy => hf s y (List.mem_cons_of_mem _ hy)) _
      (hf s x (List.mem_cons_self _ _) hs)

/-- Looking up the key just set returns the value just set. -/
theorem getA_setA_self {κ ν : Type} [DecidableEq κ]
    (l : List (κ × ν)) (k : κ) (v : ν) : getA (setA l k v) k = some v := by
  induction l with
  | nil => simp [setA, getA]
  | cons kv rest ih =>
    by_cases h : kv.1 = k
    · simp [setA, h, getA]
    · simp [setA, h, getA, ih]

/-- Launching jobs does not touch the message queue. -/
theorem launchJobs_msgs (st : SState) (ordered : List JobKey)
    (alloc : List (JobKey × Nat)) :
    (launchJobs st ordered alloc).msgs = st.msgs := by
  refine @foldl_preserve SState JobKey (fun s => s.msgs = st.msgs) _ ordered ?_ st rfl
  intro s j _ h
  by_cases ha : getDA alloc j 0 = 0 <;> simp [ha, h]

/-- The refresh/allocate/launch phase does not touch the message queue. -/
theorem schedPrepare_msgs (I : SchedInputs) (st : SState) :
    (schedPrepare I st).msgs = st.msgs := by
  unfold schedPrepare
  dsimp only
  split
  · exact launchJobs_msgs _ _ _
  · rfl

/-! Claim C8. -/

/-- C8: every external-solver request built by the adapter has `shatter = 10`,
except `shatter = 5` exactly when the task list is a single task whose request
type textually mentions the reserved keyword `"turtle"`; every other request
field is passed through from the corresponding argument (`verbose` being the
constant `False` of the source). -/
theorem C8_request_fields (g : Grammar) (tasks : List Task)
    (mfs : List (String × Int)) (evaluationTimeout : Rat) (cpus : Nat)
    (timeout lowerBound upperBound budgetIncrement : Rat) :
    let r := buildSolverRequest g tasks mfs evaluationTimeout cpus timeout
      lowerBound upperBound budgetIncrement
    (r.shatter = 5 ↔ ∃ t, tasks = [t] ∧ strOccurs "turtle" t.request = true)
    ∧ (r.shatter = 5 ∨ r.shatter = 10)
    ∧ r.dsl = g ∧ r.programTimeout = evaluationTimeout ∧ r.nc = cpus
    ∧ r.timeout = timeout ∧ r.lowerBound = lowerBound
    ∧ r.upperBound = upperBound ∧ r.budgetIncrement = budgetIncrement
    ∧ r.verbose = false
    ∧ r.taskMsgs = tasks.map
        (fun t => ⟨t.examples, t.name, t.request, getDA mfs t.name 0⟩) := by
  refine ⟨?_, ?_, rfl, rfl, rfl, rfl, rfl, rfl, rfl, rfl, rfl⟩
  · rcases tasks with _ | ⟨t, _ | ⟨t2, ts⟩⟩
    · simp [buildSolverRequest]
    · by_cases h : strOccurs "turtle" t.request <;>
        simp [buildSolverRequest, h]
    · simp [buildSolverRequest]
  · rcases tasks with _ | ⟨t, _ | ⟨t2, ts⟩⟩
    · right; rfl
    · by_cases h : strOccurs "turtle" t.request
      · left; simp [buildSolverRequest, h]
      · right; simp [buildSolverRequest, h]
    · right; rfl

/-! Claim C7. -/

/-- C7: a task whose external-solver response lists zero solutions gets an
empty `Frontier` and a `None` search time from the adapter, and the
scheduler's merge step with a `None` search time leaves the task's
best-search-time map unchanged. -/
theorem C7_empty_solutions :
    (∀ (gLL : String → Nat → Rat) (parse : String → Nat)
        (elapsedTime : Rat) (response : String → List WireSolution) (t : Task),
      response t.name = [] →
      ocamlTaskResult gLL parse elapsedTime response t
        = (Frontier.mk [] t.name, none))
    ∧ (∀ (frontiers : List (String × Frontier))
        (bst : List (String × Option Rat)) (tname : String) (f oldF : Frontier),
      getA frontiers tname = some oldF →
      processTaskResult frontiers bst tname f none
        = .ok (setA frontiers tname (oldF.combine f), bst)) := by
  constructor
  · intro gLL parse elapsedTime response t h
    simp [ocamlTaskResult, h]
  · intro frontiers bst tname f oldF h
    simp [processTaskResult, h]

/-- Witness for C7 at concrete inputs. -/
theorem C7_empty_solutions_witness :
    ocamlTaskResult (fun _ _ => 0) (fun _ => 0) 0 (fun _ => [])
        ⟨"t", "r", []⟩ = (Frontier.mk [] "t", none)
    ∧ processTaskResult [("t", Frontier.mk [] "t")] [("t", none)] "t"
        (Frontier.mk [] "t") none
        = .ok (setA [("t", Frontier.mk [] "t")] "t"
            ((Frontier.mk [] "t").combine (Frontier.mk [] "t")), [("t", none)]) :=
  ⟨C7_empty_solutions.1 _ _ _ _ _ rfl,
   C7_empty_solutions.2 _ _ _ _ _ (by with_unfolding_all decide)⟩

/-! Claim C9. -/

/-- C9: with an empty task list the scheduler returns `([], {})` from its
first loop iteration, with zero solver dispatches. -/
theorem C9_empty_tasks (I : SchedInputs) (msgs : List SchedMessage)
    (fuel : Nat) (h : I.tasks = []) :
    multicoreEnumeration I msgs (fuel + 1) = .ok ([], [], 0) := by
  obtain ⟨tasks, t2g, T, cpus, mf, testing⟩ := I
  cases h
  rfl

/-- Witness for C9 at concrete inputs. -/
theorem C9_empty_tasks_witness :
    multicoreEnumeration
      { tasks := []
        task2grammar := fun _ => ⟨[]⟩
        enumerationTimeout := 1
        cpus := 1
        maximumFrontier := 1
        testing := false } [] 1 = .ok ([], [], 0) :=
  C9_empty_tasks _ [] 0 rfl

/-! Claim C6. -/

/-- C6: a failure anywhere in a worker becomes a failure message
(`wrapInThread`), and the scheduler aborts the whole run at that message —
no frontier merging happens for it or for any later message (the remaining
trace `rest` is irrelevant). -/
theorem C6_failure_fatal :
    (∀ {α β ε : Type} (f : α → Except ε β) (ID : Nat) (a : α) (e : ε),
      f a = .error e → wrapInThread f ID a = .failure ID e)
    ∧ (∀ (st : SState) (ID : Nat),
      handleMessage st (.failure ID)
        = .error "PANIC! Exception in child worker")
    ∧ (∀ (I : SchedInputs) (fuel : Nat) (st : SState) (ID : Nat)
        (rest : List SchedMessage),
      st.msgs = SchedMessage.failure ID :: rest →
      allStopped (schedPrepare I st) = false →
      schedLoop I (fuel + 1) st
        = .error "PANIC! Exception in child worker") := by
  refine ⟨?_, ?_, ?_⟩
  · intro α β ε f ID a e h
    simp [wrapInThread, h]
  · intro st ID
    rfl
  · intro I fuel st ID rest hmsgs hstop
    have hm : (schedPrepare I st).msgs = SchedMessage.failure ID :: rest :=
      (schedPrepare_msgs I st).trans hmsgs
    rw [schedLoop, if_neg (by simp [hstop]), hm]
    rfl

/-- A scheduler state with one running stopwatch and a pending failure
message, for the C6 witness. -/
def c6State : SState :=
  { jobs := []
    lowerBounds := []
    frontiers := []
    bestSearchTime := []
    stopwatches := [((⟨[]⟩, "r", none), ⟨true, 0⟩)]
    activeCPUs := 0
    id2CPUs := []
    id2job := []
    nextID := 0
    launches := 0
    msgs := [SchedMessage.failure 0] }

/-- Scheduler inputs for the C6 witness. -/
def c6Inputs : SchedInputs :=
  { tasks := []
    task2grammar := fun _ => ⟨[]⟩
    enumerationTimeout := 1
    cpus := 1
    maximumFrontier := 1
    testing := false }

/-! Invariants of the enumeration loop, used by claims C2, C3 and C5. -/

/-- The C2 bound: every queue holds at most its task's maximum frontier. -/
def sizeInv (mfs : List Int) (st : EState) : Prop :=
  ∀ n, (((st.hits.getD n []).length : Int)) ≤ mfs.getD n 0

/-- Popping the maximum from a nonempty queue removes exactly one element. -/
theorem popMaximum_length (q : PQ) (h : q ≠ []) :
    (PQ.popMaximum q).length + 1 = q.length := by
  induction q with
  | nil => exact absurd rfl h
  | cons x xs ih =>
    simp only [PQ.popMaximum]
    split
    · rfl
    · rename_i hall
      have hxs : xs ≠ [] := by
        rintro rfl
        simp at hall
      have hlen := ih hxs
      simp only [List.length_cons]
      omega

/-- A push followed by an overflow-triggered `popMaximum` respects a
capacity bound that held before the push. -/
theorem pushPop_length (old : PQ) (pri dtv : Rat) (e : FrontierEntry)
    (mfn : Int) (hold : (old.length : Int) ≤ mfn) :
    (((if ((old.push pri dtv e).length : Int) > mfn
        then (old.push pri dtv e).popMaximum
        else old.push pri dtv e).length : Int)) ≤ mfn := by
  split
  · rename_i h3
    have hpop := popMaximum_length (old.push pri dtv e) (by simp [PQ.push])
    simp only [PQ.push, List.length_cons] at hpop ⊢
    omega
  · rename_i h3
    simp only [PQ.push, List.length_cons] at h3 ⊢
    omega

/-- One `scoreTask` step preserves the queue-size bound: a push that
overflows the capacity is immediately followed by a `popMaximum`. -/
theorem scoreTask_sizeInv (I : EnumInputs) (prior : Rat) (p : Nat)
    (st : EState) (nt : Nat × Task) (hs : sizeInv I.maximumFrontiers st) :
    sizeInv I.maximumFrontiers (scoreTask I prior p st nt) := by
  unfold scoreTask
  split
  · exact hs
  · rename_i likelihood hsc
    intro n
    dsimp only
    rw [List.getD_eq_getElem?_getD, List.getElem?_set]
    by_cases h1 : nt.1 = n
    · rw [if_pos h1]
      by_cases h2 : nt.1 < st.hits.length
      · rw [if_pos h2]
        subst h1
        exact pushPop_length _ _ _ _ _ (hs nt.1)
      · rw [if_neg h2]
        have hz : st.hits.getD nt.1 [] = [] := by
          rw [List.getD_eq_getElem?_getD, List.getElem?_eq_none (by omega)]
          rfl
        have h0 := hs nt.1
        rw [hz] at h0
        subst h1
        simpa using h0
    · rw [if_neg h1]
      simpa [List.getD_eq_getElem?_getD] using hs n

/-- Processing one enumerated program preserves the queue-size bound. -/
theorem processProgram_sizeInv (I : EnumInputs) (previousBudget budget : Rat)
    (st : EState) (pp : Rat × Nat) (hs : sizeInv I.maximumFrontiers st) :
    sizeInv I.maximumFrontiers (processProgram I previousBudget budget st pp) := by
  unfold processProgram
  split
  · exact hs
  · dsimp only
    split
    · split
      · have hfold : sizeInv I.maximumFrontiers
            (I.tasks.enum.foldl (scoreTask I pp.1 pp.2)
              { st with total := st.total + 1 }) :=
          foldl_preserve _ (fun s x _ hx => scoreTask_sizeInv I pp.1 pp.2 s x hx)
            { st with total := st.total + 1 } hs
        split
        · exact hfold
        · exact hfold
      · exact hs
    · exact hs

/-- A whole description-length window preserves the queue-size bound. -/
theorem processWindow_sizeInv (I : EnumInputs) (previousBudget budget : Rat)
    (st : EState) (hs : sizeInv I.maximumFrontiers st) :
    sizeInv I.maximumFrontiers (processWindow I previousBudget budget st) :=
  foldl_preserve _
    (fun s x _ hx => processProgram_sizeInv I previousBudget budget s x hx) st hs

/-- The whole iterative-deepening loop preserves the queue-size bound. -/
theorem enumLoop_sizeInv (I : EnumInputs) :
    ∀ (fuel : Nat) (previousBudget budget : Rat) (st : EState),
      sizeInv I.maximumFrontiers st →
      sizeInv I.maximumFrontiers (enumLoop I fuel previousBudget budget st) := by
  intro fuel
  induction fuel with
  | zero => exact fun _ _ st hs => hs
  | succ m ih =>
    intro previousBudget budget st hs
    rw [enumLoop]
    dsimp only
    split
    · split
      · exact processWindow_sizeInv _ _ _ _ hs
      · split
        · exact processWindow_sizeInv _ _ _ _ hs
        · exact ih _ _ _ (processWindow_sizeInv _ _ _ _ hs)
    · exact hs

/-- The initial state has one empty queue per task. -/
theorem initEState_hits_getD (I : EnumInputs) (n : Nat) :
    (initEState I).hits.getD n [] = [] := by
  show (I.tasks.map fun _ => ([] : PQ)).getD n [] = []
  rw [List.getD_eq_getElem?_getD, List.getElem?_map]
  cases I.tasks[n]? <;> rfl

/-! Claim C2. -/

/-- C2: when every per-task capacity is nonnegative, each task's priority
queue holds at most `maximumFrontiers[n]` entries after every scoring
iteration (a push that overflows is at once followed by eviction of the
maximum-priority entry inside `scoreTask`), and hence at the end of any run,
so each task's retained entry list is within its capacity. -/
theorem C2_queue_bound (I : EnumInputs)
    (hmf : ∀ n, 0 ≤ I.maximumFrontiers.getD n 0) :
    (∀ (st : EState) (prior : Rat) (p : Nat) (nt : Nat × Task),
      sizeInv I.maximumFrontiers st →
      sizeInv I.maximumFrontiers (scoreTask I prior p st nt))
    ∧ (∀ fuel : Nat, sizeInv I.maximumFrontiers (enumerateRun I fuel))
    ∧ (∀ fuel n : Nat,
        ((hitEntries ((enumerateRun I fuel).hits.getD n [])).length : Int)
          ≤ I.maximumFrontiers.getD n 0) := by
  have hinit : sizeInv I.maximumFrontiers (initEState I) := by
    intro n
    rw [initEState_hits_getD]
    simpa using hmf n
  have hrun : ∀ fuel, sizeInv I.maximumFrontiers (enumerateRun I fuel) :=
    fun fuel => enumLoop_sizeInv I fuel _ _ _ hinit
  refine ⟨fun st prior p nt hs => scoreTask_sizeInv I prior p st nt hs,
    hrun, ?_⟩
  intro fuel n
  have hb := hrun fuel n
  simpa [hitEntries] using hb

/-- Concrete inputs for the C2 witness: a one-task run with capacity 1 in
which two programs are found, so one eviction actually happens. -/
def c2Inputs : EnumInputs :=
  { g := ⟨[(-1, 10), (-2, 20)]⟩
    tasks := [⟨"t0", "tint", []⟩]
    score := fun p _ =>
      if p = 10 then some (-10) else if p = 20 then some 0 else none
    timeout := 100
    elapsedTime := 0
    lowerBound := 0
    upperBound := 5
    budgetIncrement := 3/2
    maximumFrontiers := [1]
    clk := fun n => (n : Rat) }

/-- Witness for C2 at concrete inputs. -/
theorem C2_queue_bound_witness :
    ((hitEntries ((enumerateRun c2Inputs 10).hits.getD 0 [])).length : Int)
      ≤ c2Inputs.maximumFrontiers.getD 0 0 :=
  (C2_queue_bound c2Inputs (by
    intro n
    rcases n with _ | m
    · decide
    · simp [c2Inputs, List.getD_eq_getElem?_getD])).2.2 10 0

/-! Claims C3 and C5: the `assertFailed` flag never gets set, so no
`AssertionError` escapes and the run returns normally. -/

/-- Scoring a task never touches the assertion flag. -/
theorem scoreTask_assertFailed (I : EnumInputs) (prior : Rat) (p : Nat)
    (st : EState) (nt : Nat × Task) :
    (scoreTask I prior p st nt).assertFailed = st.assertFailed := by
  unfold scoreTask
  split <;> rfl

/-- Processing a program that the grammar yielded inside the requested
window never fires the two description-length assertions. -/
theorem processProgram_assertFailed (I : EnumInputs)
    (previousBudget budget : Rat) (st : EState) (pp : Rat × Nat)
    (hmem : pp ∈ I.g.enumeration previousBudget budget)
    (h : st.assertFailed = false) :
    (processProgram I previousBudget budget st pp).assertFailed = false := by
  have hc := (List.mem_filter.mp hmem).2
  simp only [Bool.and_eq_true, decide_eq_true_eq] at hc
  unfold processProgram
  split
  · exact h
  · dsimp only
    rw [if_pos hc.2, if_pos hc.1]
    have hfold : (I.tasks.enum.foldl (scoreTask I pp.1 pp.2)
        { st with total := st.total + 1 }).assertFailed = false :=
      @foldl_preserve EState (Nat × Task) (fun s => s.assertFailed = false) _ _
        (fun s x _ hx => (scoreTask_assertFailed I pp.1 pp.2 s x).trans hx)
        { st with total := st.total + 1 } h
    split
    · exact hfold
    · exact hfold

/-- A whole window never fires the assertions. -/
theorem processWindow_assertFailed (I : EnumInputs)
    (previousBudget budget : Rat) (st : EState)
    (h : st.assertFailed = false) :
    (processWindow I previousBudget budget st).assertFailed = false :=
  @foldl_preserve EState (Rat × Nat) (fun s => s.assertFailed = false) _ _
    (fun s x hx hp => processProgram_assertFailed I previousBudget budget s x
      hx hp) st h

/-- The whole loop never fires the assertions. -/
theorem enumLoop_assertFailed (I : EnumInputs) :
    ∀ (fuel : Nat) (previousBudget budget : Rat) (st : EState),
      st.assertFailed = false →
      (enumLoop I fuel previousBudget budget st).assertFailed = false := by
  intro fuel
  induction fuel with
  | zero => exact fun _ _ _ h => h
  | succ m ih =>
    intro previousBudget budget st h
    rw [enumLoop]
    dsimp only
    split
    · split
      · exact processWindow_assertFailed _ _ _ _ h
      · split
        · exact processWindow_assertFailed _ _ _ _ h
        · exact ih _ _ _ (processWindow_assertFailed _ _ _ _ h)
    · exact h

/-- Any run of the enumerator leaves the assertion flag unset. -/
theorem enumerateRun_assertFailed (I : EnumInputs) (fuel : Nat) :
    (enumerateRun I fuel).assertFailed = false :=
  enumLoop_assertFailed I fuel _ _ _ rfl

/-- C3: every program the grammar's enumeration capability yields for the
window `(previousBudget, budget]` has description length `-logPrior` strictly
above `previousBudget` and at most `budget`, and consequently the two
in-loop assertions of `enumerateForTasks` never fire on any run. -/
theorem C3_window_assertions :
    (∀ (g : Grammar) (lo hi prior : Rat) (p : Nat),
      (prior, p) ∈ g.enumeration lo hi → lo < -prior ∧ -prior ≤ hi)
    ∧ (∀ (I : EnumInputs) (fuel : Nat),
      (enumerateRun I fuel).assertFailed = false) := by
  constructor
  · intro g lo hi prior p hm
    have hc := (List.mem_filter.mp hm).2
    simpa only [Bool.and_eq_true, decide_eq_true_eq] using hc
  · exact enumerateRun_assertFailed

/-- Concrete inputs for the C3 witness. -/
def c3Inputs : EnumInputs :=
  { g := ⟨[(-1, 7)]⟩
    tasks := [⟨"t0", "tint", []⟩]
    score := fun _ _ => some 0
    timeout := 100
    elapsedTime := 0
    lowerBound := 0
    upperBound := 2
    budgetIncrement := 3/2
    maximumFrontiers := [1]
    clk := fun n => (n : Rat) }

/-- Witness for C3 at concrete inputs. -/
theorem C3_window_assertions_witness :
    ((0 : Rat) < -(-1 : Rat) ∧ -(-1 : Rat) ≤ 2)
    ∧ (enumerateRun c3Inputs 2).assertFailed = false :=
  ⟨C3_window_assertions.1 ⟨[(-1, 7)]⟩ 0 2 (-1) 7 (by with_unfolding_all decide),
   C3_window_assertions.2 c3Inputs 2⟩

/-- Under the preconditions of `enumerateForTasks` (nonempty tasks of one
request type) the function returns `ok`, with frontiers made of the retained
entries and search times that are the minima of the retained discovery
times. -/
theorem enumerateForTasks_ok (I : EnumInputs) (fuel : Nat) (t0 : Task)
    (rest : List Task) (htasks : I.tasks = t0 :: rest)
    (hreq : rest.all (fun t => t.request == t0.request) = true) :
    enumerateForTasks I fuel
      = .ok (I.tasks.enum.map (fun nt =>
          Frontier.mk (hitEntries ((enumerateRun I fuel).hits.getD nt.1 []))
            nt.2.name),
        I.tasks.enum.map (fun nt =>
          (hitDts ((enumerateRun I fuel).hits.getD nt.1 [])).min?)) := by
  unfold enumerateForTasks
  rw [htasks]
  dsimp only
  rw [if_pos hreq, if_neg (by simp [enumerateRun_assertFailed])]

/-! Claim C5. -/

/-- C5: under the function's preconditions (a nonempty task list sharing one
request type) `enumerateForTasks` always returns normally — for every fuel,
timeout and clock, in particular whenever the timeout cuts a window short —
and the returned frontiers are built from exactly the entries collected so
far; with `timeout = 0` (and a monotone clock) the enumeration loop is never
entered: no program is processed and every queue, hence every returned
frontier, stays empty. -/
theorem C5_timeout_returns (I : EnumInputs) (fuel : Nat) (t0 : Task)
    (rest : List Task) (htasks : I.tasks = t0 :: rest)
    (hreq : rest.all (fun t => t.request == t0.request) = true) :
    (enumerateForTasks I fuel
      = .ok (I.tasks.enum.map (fun nt =>
          Frontier.mk (hitEntries ((enumerateRun I fuel).hits.getD nt.1 []))
            nt.2.name),
        I.tasks.enum.map (fun nt =>
          (hitDts ((enumerateRun I fuel).hits.getD nt.1 [])).min?)))
    ∧ (I.timeout = 0 → Monotone I.clk →
        (enumerateRun I fuel).total = 0
        ∧ ∀ n, (enumerateRun I fuel).hits.getD n [] = []) := by
  constructor
  · exact enumerateForTasks_ok I fuel t0 rest htasks hreq
  · intro h0 hmono
    have hrun : ∀ (st : EState), st = initEState I →
        (enumLoop I fuel I.lowerBound (I.lowerBound + I.budgetIncrement) st).total
            = (initEState I).total
        ∧ (enumLoop I fuel I.lowerBound (I.lowerBound + I.budgetIncrement)
              st).hits = (initEState I).hits := by
      intro st hst
      cases fuel with
      | zero => rw [hst]; exact ⟨rfl, rfl⟩
      | succ m =>
        rw [enumLoop]
        dsimp only
        rw [if_neg]
        · rw [hst]; exact ⟨rfl, rfl⟩
        · rintro ⟨h1, -⟩
          rw [h0, add_zero] at h1
          have hle : starting I ≤ I.clk st.c := hmono (Nat.zero_le st.c)
          exact absurd h1 (not_lt.mpr hle)
    obtain ⟨h2, h3⟩ := hrun (initEState I) rfl
    exact ⟨h2, fun n => by
      show ((enumLoop I fuel I.lowerBound (I.lowerBound + I.budgetIncrement)
        (initEState I)).hits.getD n []) = []
      rw [h3]
      exact initEState_hits_getD I n⟩

/-- Concrete inputs for the C5 witness: `timeout = 0`. -/
def c5Inputs : EnumInputs :=
  { g := ⟨[(-1, 7)]⟩
    tasks := [⟨"t0", "tint", []⟩]
    score := fun _ _ => some 0
    timeout := 0
    elapsedTime := 0
    lowerBound := 0
    upperBound := 5
    budgetIncrement := 3/2
    maximumFrontiers := [1]
    clk := fun _ => (0 : Rat) }

/-- Witness for C5 at concrete inputs: the zero-timeout run processes no
program and returns an empty queue. -/
theorem C5_timeout_returns_witness :
    (enumerateRun c5Inputs 1).total = 0
    ∧ (enumerateRun c5Inputs 1).hits.getD 0 [] = [] :=
  ⟨((C5_timeout_returns c5Inputs 1 ⟨"t0", "tint", []⟩ [] rfl rfl).2 rfl
      monotone_const).1,
   ((C5_timeout_returns c5Inputs 1 ⟨"t0", "tint", []⟩ [] rfl rfl).2 rfl
      monotone_const).2 0⟩

/-! Claim C1 (corrected): the in-process enumerator reports the earliest
discovery time among the retained entries, not the discovery time of the
best-scoring retained entry. -/

/-- Concrete inputs for C1: program 10 (scored at clock read 2, joint score
-11) and program 20 (scored at clock read 5, joint score -2) are both
retained, and the best-scoring entry is the one found later. -/
def c1Inputs : EnumInputs :=
  { g := ⟨[(-1, 10), (-2, 20)]⟩
    tasks := [⟨"t0", "tint", []⟩]
    score := fun p _ =>
      if p = 10 then some (-10) else if p = 20 then some 0 else none
    timeout := 100
    elapsedTime := 0
    lowerBound := 0
    upperBound := 5
    budgetIncrement := 3/2
    maximumFrontiers := [2]
    clk := fun n => (n : Rat) }

/-- C1 counterexample: on `c1Inputs` the returned search time is 2 — the
earliest discovery time over all retained entries — while the retained entry
maximizing `logPrior + logLikelihood` was first found at time 5; the claimed
equality between the two fails. -/
theorem C1_counterexample :
    (enumerateForTasks c1Inputs 10).toOption.map (fun r => r.2)
        = some [some 2]
    ∧ bestHitTime ((enumerateRun c1Inputs 10).hits.getD 0 []) = some 5
    ∧ (some (2 : Rat) ≠ some (5 : Rat)) := by
  with_unfolding_all decide

/-- C1 (amended): the search time `enumerateForTasks` returns for a task is
`None` exactly when no entry was retained for it, and otherwise it is the
minimum of the retained entries' discovery times — i.e. the wall-clock time
at which the first retained program was found. -/
theorem C1_search_time_min (I : EnumInputs) (fuel : Nat)
    (fronts : List Frontier) (times : List (Option Rat))
    (h : enumerateForTasks I fuel = .ok (fronts, times))
    (n : Nat) (hn : n < I.tasks.length) :
    (times.getD n none = none ↔ (enumerateRun I fuel).hits.getD n [] = [])
    ∧ ∀ s, times.getD n none = some s →
        s ∈ hitDts ((enumerateRun I fuel).hits.getD n [])
        ∧ ∀ d ∈ hitDts ((enumerateRun I fuel).hits.getD n []), s ≤ d := by
  have htimes : times = I.tasks.enum.map
      (fun nt => (hitDts ((enumerateRun I fuel).hits.getD nt.1 [])).min?) := by
    rcases hT : I.tasks with _ | ⟨t0, rest⟩
    · unfold enumerateForTasks at h
      rw [hT] at h
      exact absurd h (by simp)
    · by_cases hreq : rest.all (fun t => t.request == t0.request)
      · have heq := enumerateForTasks_ok I fuel t0 rest hT hreq
        rw [hT] at heq
        rw [heq] at h
        simp only [Except.ok.injEq, Prod.mk.injEq] at h
        exact h.2.symm
      · unfold enumerateForTasks at h
        rw [hT] at h
        dsimp only at h
        rw [if_neg hreq] at h
        exact absurd h (by simp)
  have hidx : times.getD n none
      = (hitDts ((enumerateRun I fuel).hits.getD n [])).min? := by
    have ht : I.tasks[n]? = some I.tasks[n] := List.getElem?_eq_getElem hn
    rw [htimes, List.getD_eq_getElem?_getD, List.getElem?_map,
      List.getElem?_enum, ht]
    rfl
  rw [hidx]
  constructor
  · rw [List.min?_eq_none_iff]
    simp [hitDts]
  · intro s hs
    haveI : Std.Antisymm (fun x1 x2 : Rat => x1 ≤ x2) :=
      ⟨fun h1 h2 => le_antisymm h1 h2⟩
    exact (List.min?_eq_some_iff (fun a => le_refl a)
      (fun a b => min_choice a b) (fun a b c => le_min_iff)).mp hs

/-- Witness for C1 (amended) at concrete inputs. -/
theorem C1_search_time_min_witness :
    (([some (2 : Rat)] : List (Option Rat)).getD 0 none = none
        ↔ (enumerateRun c1Inputs 10).hits.getD 0 [] = [])
    ∧ ∀ s, ([some (2 : Rat)] : List (Option Rat)).getD 0 none = some s →
        s ∈ hitDts ((enumerateRun c1Inputs 10).hits.getD 0 [])
        ∧ ∀ d ∈ hitDts ((enumerateRun c1Inputs 10).hits.getD 0 []), s ≤ d :=
  C1_search_time_min c1Inputs 10
    [Frontier.mk [⟨20, -2, 0⟩, ⟨10, -1, -10⟩] "t0"] [some 2]
    (by with_unfolding_all rfl) 0 (by decide)

/-! Claim C4. -/

/-- C4: the scheduler's best-search-time update on one successful task
result with search time `dt = some d` follows exactly the claimed rule:
no recorded time yet sets `d`; with a recorded time `b`, a merged frontier
whose best joint score strictly exceeds the pre-merge best joint score
replaces it with `d`, and an equal joint score keeps `min b d`. -/
theorem C4_best_search_time (frontiers : List (String × Frontier))
    (bst : List (String × Option Rat)) (tname : String) (f oldF : Frontier)
    (d : Rat) (hf : getA frontiers tname = some oldF) :
    (getA bst tname = some none →
      ∃ F B, processTaskResult frontiers bst tname f (some d) = .ok (F, B)
        ∧ getA B tname = some (some d))
    ∧ (∀ b ob nb, getA bst tname = some (some b) →
        oldF.bestPosterior = some ob →
        (oldF.combine f).bestPosterior = some nb →
        (nb.joint > ob.joint →
          ∃ F B, processTaskResult frontiers bst tname f (some d) = .ok (F, B)
            ∧ getA B tname = some (some d))
        ∧ (nb.joint = ob.joint →
          ∃ F B, processTaskResult frontiers bst tname f (some d) = .ok (F, B)
            ∧ getA B tname = some (some (min b d)))) := by
  unfold processTaskResult
  rw [hf]
  dsimp only
  constructor
  · intro hb
    rw [hb]
    exact ⟨_, _, rfl, getA_setA_self _ _ _⟩
  · intro b ob nb hb hob hnb
    rw [hb]
    have hone : ¬ oldF.entries.length = 0 := by
      intro hz
      rw [List.length_eq_zero] at hz
      rw [show oldF.bestPosterior = none from by
        simp [Frontier.bestPosterior, hz]] at hob
      cases hob
    have htwo : ¬ (oldF.combine f).entries.length = 0 := by
      intro hz
      rw [List.length_eq_zero] at hz
      rw [show (oldF.combine f).bestPosterior = none from by
        simp [Frontier.bestPosterior, hz]] at hnb
      cases hnb
    rw [if_neg hone, if_neg htwo, hob, hnb]
    dsimp only
    constructor
    · intro hgt
      rw [if_pos hgt]
      exact ⟨_, _, rfl, getA_setA_self _ _ _⟩
    · intro heq
      rw [if_neg (by rw [heq]; exact lt_irrefl _), if_pos heq]
      exact ⟨_, _, rfl, getA_setA_self _ _ _⟩

/-- Witness for C4 at concrete inputs: both the first-solution case and the
strictly-better-score case. -/
theorem C4_best_search_time_witness :
    (∃ F B, processTaskResult [("t", Frontier.mk [⟨1, 0, 0⟩] "t")]
        [("t", none)] "t" (Frontier.mk [⟨2, 0, 1⟩] "t") (some 4) = .ok (F, B)
        ∧ getA B "t" = some (some 4))
    ∧ (∃ F B, processTaskResult [("t", Frontier.mk [⟨1, 0, 0⟩] "t")]
        [("t", some 9)] "t" (Frontier.mk [⟨2, 0, 1⟩] "t") (some 4) = .ok (F, B)
        ∧ getA B "t" = some (some 4)) :=
  ⟨(C4_best_search_time [("t", Frontier.mk [⟨1, 0, 0⟩] "t")] [("t", none)]
      "t" (Frontier.mk [⟨2, 0, 1⟩] "t") (Frontier.mk [⟨1, 0, 0⟩] "t") 4
      (by with_unfolding_all decide)).1 (by with_unfolding_all decide),
   ((C4_best_search_time [("t", Frontier.mk [⟨1, 0, 0⟩] "t")] [("t", some 9)]
      "t" (Frontier.mk [⟨2, 0, 1⟩] "t") (Frontier.mk [⟨1, 0, 0⟩] "t") 4
      (by with_unfolding_all decide)).2 9 ⟨1, 0, 0⟩ ⟨2, 0, 1⟩
      (by with_unfolding_all decide) (by with_unfolding_all decide)
      (by with_unfolding_all decide)).1 (by with_unfolding_all decide)⟩

/-! Claim C10 (corrected: `refreshJobs` also drops a task when its job's
stopwatch has exceeded the enumeration timeout, regardless of hit count). -/

/-- A single-job `refreshJobs` call unfolded to an `if` on the kept tasks. -/
theorem refreshJobs_single (mf : Int) (T : Rat)
    (frontiers : List (String × Frontier)) (sw : List (JobKey × Stopwatch))
    (k : JobKey) (ts : List Task) :
    refreshJobs mf T frontiers sw [(k, ts)]
      = (if (ts.filter fun t =>
            decide (((numberOfHits (getDA frontiers t.name ⟨[], t.name⟩)) : Int)
                < mf)
            && decide ((getDA sw k defaultSW).elapsed ≤ T)).isEmpty
         then []
         else [(k, ts.filter fun t =>
            decide (((numberOfHits (getDA frontiers t.name ⟨[], t.name⟩)) : Int)
                < mf)
            && decide ((getDA sw k defaultSW).elapsed ≤ T))]) := by
  by_cases he : (ts.filter fun t =>
      decide (((numberOfHits (getDA frontiers t.name ⟨[], t.name⟩)) : Int)
          < mf)
      && decide ((getDA sw k defaultSW).elapsed ≤ T)).isEmpty <;>
    simp [refreshJobs, List.filterMap, he]

/-- Membership characterization of a single-job `refreshJobs` call. -/
theorem mem_refreshJobs_single (mf : Int) (T : Rat)
    (frontiers : List (String × Frontier)) (sw : List (JobKey × Stopwatch))
    (k : JobKey) (ts : List Task) (t : Task) :
    (∃ v, refreshJobs mf T frontiers sw [(k, ts)] = [(k, v)] ∧ t ∈ v)
      ↔ (t ∈ ts
        ∧ (((numberOfHits (getDA frontiers t.name ⟨[], t.name⟩)) : Int) < mf
        ∧ (getDA sw k defaultSW).elapsed ≤ T)) := by
  rw [refreshJobs_single]
  constructor
  · rintro ⟨v, hv, htv⟩
    split at hv
    · cases hv
    · obtain rfl : (ts.filter fun t =>
          decide (((numberOfHits (getDA frontiers t.name ⟨[], t.name⟩)) : Int)
              < mf)
          && decide ((getDA sw k defaultSW).elapsed ≤ T)) = v := by
        simpa using hv
      have hm := List.mem_filter.mp htv
      refine ⟨hm.1, ?_⟩
      simpa [Bool.and_eq_true, decide_eq_true_eq] using hm.2
  · rintro ⟨ht, h1, h2⟩
    have htf : t ∈ ts.filter fun t =>
        decide (((numberOfHits (getDA frontiers t.name ⟨[], t.name⟩)) : Int)
            < mf)
        && decide ((getDA sw k defaultSW).elapsed ≤ T) :=
      List.mem_filter.mpr ⟨ht, by simp [h1, h2]⟩
    have hne : ¬ (ts.filter fun t =>
        decide (((numberOfHits (getDA frontiers t.name ⟨[], t.name⟩)) : Int)
            < mf)
        && decide ((getDA sw k defaultSW).elapsed ≤ T)).isEmpty = true := by
      intro habs
      rw [List.isEmpty_iff.mp habs] at htf
      cases htf
    rw [if_neg hne]
    exact ⟨_, rfl, htf⟩

/-- C10 counterexample: a task with an empty frontier (zero hits, strictly
fewer than `maximumFrontier = 2`) is nonetheless dropped by `refreshJobs`
because its job's stopwatch (elapsed 10) exceeded the enumeration timeout
(5) — refuting "dropped only once it holds at least maximumFrontier
near-zero-loglikelihood entries". -/
theorem C10_counterexample :
    refreshJobs 2 5 [("t", Frontier.mk [] "t")]
        [((⟨[]⟩, "r", none), ⟨false, 10⟩)]
        [((⟨[]⟩, "r", none), [⟨"t", "r", []⟩])] = []
    ∧ numberOfHits (Frontier.mk [] "t") = 0
    ∧ ((0 : Int) < 2) := by with_unfolding_all decide

/-- C10 (amended): a task of a (single-key) job survives `refreshJobs`
exactly when its frontier holds fewer than `maximumFrontier` hits AND the
job's stopwatch has not exceeded the enumeration timeout; the capacity sent
to workers is `maximumFrontier - numberOfHits`; and entries with
`logLikelihood ≤ -0.01` never count as hits. -/
theorem C10_hit_counting (mf : Int) (T : Rat)
    (frontiers : List (String × Frontier)) (sw : List (JobKey × Stopwatch))
    (k : JobKey) (ts : List Task) (t : Task) (ht : t ∈ ts) :
    ((∃ v, refreshJobs mf T frontiers sw [(k, ts)] = [(k, v)] ∧ t ∈ v) ↔
      (((numberOfHits (getDA frontiers t.name ⟨[], t.name⟩)) : Int) < mf
        ∧ (getDA sw k defaultSW).elapsed ≤ T))
    ∧ (t.name, mf - numberOfHits (getDA frontiers t.name ⟨[], t.name⟩))
        ∈ jobMaximumFrontiers mf frontiers ts
    ∧ (∀ f : Frontier,
        (∀ e ∈ f.entries, e.logLikelihood ≤ -(1/100 : Rat)) →
        numberOfHits f = 0) := by
  refine ⟨?_, ?_, ?_⟩
  · rw [mem_refreshJobs_single]
    simp [ht]
  · exact List.mem_map.mpr ⟨t, ht, rfl⟩
  · intro f hf
    exact List.countP_eq_zero.mpr fun e he => by
      simpa using not_lt.mpr (hf e he)

/-- Witness for C10 (amended) at concrete inputs. -/
theorem C10_hit_counting_witness :
    ((∃ v, refreshJobs 2 5 [("t", Frontier.mk [⟨1, 0, 0⟩] "t")]
        [((⟨[]⟩, "r", none), ⟨false, 1⟩)]
        [((⟨[]⟩, "r", none), [⟨"t", "r", []⟩])] = [((⟨[]⟩, "r", none), v)]
        ∧ (⟨"t", "r", []⟩ : Task) ∈ v) ↔
      (((numberOfHits (getDA [("t", Frontier.mk [⟨1, 0, 0⟩] "t")] "t"
          ⟨[], "t"⟩)) : Int) < 2
        ∧ (getDA [((⟨[]⟩, "r", none), (⟨false, 1⟩ : Stopwatch))]
            ((⟨[]⟩, "r", none) : JobKey) defaultSW).elapsed ≤ 5))
    ∧ ("t", (2 : Int) - numberOfHits (getDA [("t", Frontier.mk [⟨1, 0, 0⟩] "t")]
          "t" ⟨[], "t"⟩))
        ∈ jobMaximumFrontiers 2 [("t", Frontier.mk [⟨1, 0, 0⟩] "t")]
            [⟨"t", "r", []⟩]
    ∧ (∀ f : Frontier,
        (∀ e ∈ f.entries, e.logLikelihood ≤ -(1/100 : Rat)) →
        numberOfHits f = 0) :=
  C10_hit_counting 2 5 [("t", Frontier.mk [⟨1, 0, 0⟩] "t")]
    [((⟨[]⟩, "r", none), ⟨false, 1⟩)] (⟨[]⟩, "r", none) [⟨"t", "r", []⟩]
    ⟨"t", "r", []⟩ (by with_unfolding_all decide)

/-- Witness for C6 at concrete inputs. -/
theorem C6_failure_fatal_witness :
    wrapInThread (fun _ : Unit => (.error 7 : Except Nat Unit)) 3 ()
        = .failure 3 7
    ∧ handleMessage c6State (.failure 0)
        = .error "PANIC! Exception in child worker"
    ∧ schedLoop c6Inputs 1 c6State
        = .error "PANIC! Exception in child worker" :=
  ⟨C6_failure_fatal.1 _ 3 () 7 rfl,
   C6_failure_fatal.2.1 c6State 0,
   C6_failure_fatal.2.2 c6Inputs 0 c6State 0 [] rfl
     (by with_unfolding_all decide)⟩

end EC
